import Mathlib

/-!
# Verification of the GCP-SSH multi-step wizard (src/src/addKey.ts)

Shallow embedding of the multi-step input driver (`MultiStepInput`), the
four-step project-input chain of `Connect`, and the per-keystroke
validation handler, together with proofs about the claims of the
specification.

Conventions:
* The navigation history `steps` (a TS array used as a stack via
  `push`/`pop`) is a Lean `List` whose *head* is the top of the stack.
* Prompt sessions (`QuickInput` objects held in `this.current`) are
  numbered by creation order; `disposed` records the ids whose
  `dispose()` ran.
* Asynchronous behaviour is resolved into explicit event scripts: the
  generic driver consumes a script of step outcomes, the concrete wizard
  consumes a script of UI events, and the validation handler consumes a
  trace of start/finish events of the in-flight validations.
-/

namespace GcpSsh

/-- `validateNameIsUnique` (addKey.ts lines 89-92): after an artificial
delay, any name equal to the sentinel `"vscode"` is rejected with the
fixed message, everything else passes (`undefined`, here `none`). -/
def validateNameIsUnique (name : String) : Option String :=
  if name = "vscode" then some "Name not unique" else none

/-! ## Generic multi-step driver (`MultiStepInput`, lines 110-176) -/

/-- The three flow-control signals of `InputFlowAction` (lines 110-114). -/
inductive InputFlowAction where
  | back
  | cancel
  | resume
deriving DecidableEq, Repr

/-- A value thrown by a step: one of the three static `InputFlowAction`
instances, or any other rejection. -/
inductive Thrown (E : Type) where
  | flow (a : InputFlowAction)
  | other (e : E)
deriving DecidableEq, Repr

/-- The settled result of one step invocation (`await step(this)`,
line 159): either a normal return of the next step (or nothing), or a
thrown value. -/
inductive StepOutcome (S E : Type) where
  | ret (next : Option S)
  | raise (t : Thrown E)
deriving DecidableEq, Repr

/-- How a whole `stepThrough` run ended: the loop exited normally
(`completed`, covering both success and cancel, which the code does not
distinguish), a non-flow rejection propagated (`uncaught`), or the
current prompt never settled (`waiting`, e.g. the hanging
`shouldResume`). -/
inductive RunOutcome (E : Type) where
  | completed
  | uncaught (t : Thrown E)
  | waiting
deriving DecidableEq, Repr

/-- Observable final state of a `stepThrough` run: outcome, the final
`steps` stack, the invocation log (each invoked step with the history
depth just after its push), the live session in `current`, the number of
sessions ever created, and the ids disposed. -/
structure DriverResult (S E : Type) where
  outcome : RunOutcome E
  steps : List S
  invoked : List (S × Nat)
  current : Option Nat
  fresh : Nat
  disposed : List Nat
deriving DecidableEq, Repr

/-- `MultiStepInput.stepThrough` (lines 150-176). Each loop iteration
pushes the current step onto `steps`, shows a fresh prompt session
(disposing the previous one, as `showInputBox`/`showQuickPick` do at
lines 211-215 / 270-274), and consumes one scripted outcome:
* `ret next` — the step returned; `next` becomes the current step;
* `raise (flow back)` — pop the just-pushed step, then pop again for
  the step to re-invoke (lines 161-163);
* `raise (flow resume)` — pop the just-pushed step and re-invoke it
  (lines 164-165);
* `raise (flow cancel)` — clear the current step, ending the loop
  (lines 166-167);
* `raise (other e)` — rethrown (line 169): the run ends with `uncaught`
  and, crucially, without executing the final dispose of lines 173-175.
When the current step is `none` the loop ends and the final session is
disposed. An exhausted script with a live step models a prompt that
never settles (`waiting`). -/
def stepThrough {S E : Type} :
    List (StepOutcome S E) → Option S → List S → Option Nat → Nat →
    List Nat → List (S × Nat) → DriverResult S E
  | _, none, hist, cur, fresh, disp, inv =>
      ⟨.completed, hist, inv, none, fresh, disp ++ cur.toList⟩
  | [], some s, hist, cur, fresh, disp, inv =>
      ⟨.waiting, s :: hist, inv ++ [(s, hist.length + 1)], some fresh,
        fresh + 1, disp ++ cur.toList⟩
  | o :: rest, some s, hist, cur, fresh, disp, inv =>
      match o with
      | .ret next =>
          stepThrough rest next (s :: hist) (some fresh) (fresh + 1)
            (disp ++ cur.toList) (inv ++ [(s, hist.length + 1)])
      | .raise (.flow .back) =>
          stepThrough rest hist.head? hist.tail (some fresh) (fresh + 1)
            (disp ++ cur.toList) (inv ++ [(s, hist.length + 1)])
      | .raise (.flow .resume) =>
          stepThrough rest (some s) hist (some fresh) (fresh + 1)
            (disp ++ cur.toList) (inv ++ [(s, hist.length + 1)])
      | .raise (.flow .cancel) =>
          stepThrough rest none (s :: hist) (some fresh) (fresh + 1)
            (disp ++ cur.toList) (inv ++ [(s, hist.length + 1)])
      | .raise (.other e) =>
          ⟨.uncaught (.other e), s :: hist, inv ++ [(s, hist.length + 1)],
            some fresh, fresh + 1, disp ++ cur.toList⟩

/-- `MultiStepInput.run` (lines 142-145): a fresh driver (empty history,
no session) started on the initial step. -/
def runDriver {S E : Type} (script : List (StepOutcome S E)) (start : S) :
    DriverResult S E :=
  stepThrough script (some start) [] none 0 [] []

/-- Whether a flow-control signal escaped the driver as an uncaught
rejection. -/
def flowEscaped {S E : Type} (r : DriverResult S E) : Bool :=
  match r.outcome with
  | .uncaught (.flow _) => true
  | _ => false

/-! ## The concrete `Connect` wizard (lines 13-102) -/

/-- `ProjectState` (lines 15-20). `Connect` builds it as
`Partial<ProjectState>` (line 23), so every field is optional; a field
is `none` until its step resolves. -/
structure ProjectState where
  name : Option String
  username : Option String
  ip : Option String
  key_name : Option String
deriving DecidableEq, Repr

/-- The empty `Partial<ProjectState>` of `collectProjectInputs`
(line 23). -/
def initialState : ProjectState := ⟨none, none, none, none⟩

/-- The four step functions of the chain (lines 30-80). -/
inductive Step where
  | projectName
  | projectUsername
  | projectIp
  | projectKeyname
deriving DecidableEq, Repr

/-- The `value` parameter each step passes to `showInputBox`, which the
input box shows as its initial text (`input.value = value || ''`,
line 230): `''` for the first three steps (lines 35, 49, 62) and
`state.name || ''` for the key-name step (line 75). -/
def stepPrefill : Step → ProjectState → String
  | .projectKeyname, st => st.name.getD ""
  | _, _ => ""

/-- What a step does once its `showInputBox` resolves with value `v`:
the field written into the shared state, the terminal commands sent
during the step (`projectName` sends `gcloud config set project` at
line 40 before returning), and the next step returned (lines 41, 54,
67; `projectKeyname` returns nothing, line 80). -/
def applyStep : Step → String → ProjectState → ProjectState × List String × Option Step
  | .projectName, v, st =>
      ({ st with name := some v },
        ["gcloud config set project " ++ v], some .projectUsername)
  | .projectUsername, v, st => ({ st with username := some v }, [], some .projectIp)
  | .projectIp, v, st => ({ st with ip := some v }, [], some .projectKeyname)
  | .projectKeyname, v, st => ({ st with key_name := some v }, [], none)

/-- User-generated events on the live input box, in the order they fire:
typing (`onDidChangeValue`), pressing enter (`onDidAccept`), pressing
the back button (`onDidTriggerButton` with `QuickInputButtons.Back`),
and dismissing the box (`onDidHide`). -/
inductive UIEvent where
  | changeValue (s : String)
  | accept
  | backButton
  | hide
deriving DecidableEq, Repr

/-- Observable state of a `Connect` run after a list of UI events:
either the driver loop has ended (`completed` — which the code reaches
on success *and* on cancel, lines 166-167 and 25) with the collected
state and all commands sent to the terminal, or a prompt is still live
(`inPrompt`, exposing the step, the box's current value, its validation
message, the history stack and the partial state), or the run is stuck
forever (`hung`: the dismissed prompt awaits the never-resolving
`shouldResume` promise of lines 82-87). -/
inductive WizResult where
  | completed (st : ProjectState) (cmds : List String)
  | inPrompt (s : Step) (val : String) (msg : Option String)
      (hist : List Step) (st : ProjectState) (cmds : List String)
  | hung (st : ProjectState) (cmds : List String)
deriving DecidableEq, Repr

/-- One wizard run: the driver loop of `stepThrough` specialised to the
four concrete steps, with each prompt's event handling inlined from
`showInputBox` (lines 222-279). Arguments: the event script, the
current step, the box's current `input.value`, its
`input.validationMessage`, the history stack, the partial state and the
commands sent so far. `shouldResume` is the settled result of the
`shouldResume()` promise awaited at line 265: `none` models the
source's never-resolving implementation (lines 82-87), `some b` a
resolution with `b`.

* `changeValue t` updates the value and (this run being sequential, the
  validation settles before the next event, unsuperseded) records the
  validator's message (lines 255-262; overlapping validations are
  modelled separately by `valStep`).
* `accept` re-validates the *current* value and resolves the prompt
  only when validation passes (lines 245-254); a failing accept leaves
  the prompt open. On resolution the step's effects run and the next
  step (if any) is entered: pushed on the history, a fresh box shown
  with its prefill and no validation message.
* `backButton` only fires when the back button exists, i.e. when the
  history held more than one step at box creation (line 233); the
  driver then pops the just-invoked step and re-invokes the previous
  one (lines 161-163) on a fresh box.
* `hide` rejects with `resume`/`cancel` according to `shouldResume`
  (lines 263-268): `cancel` ends the loop with the partial state,
  `resume` re-invokes the same step on a fresh box, and a hanging
  `shouldResume` leaves the run stuck. -/
def runWizard (shouldResume : Option Bool) :
    List UIEvent → Step → String → Option String → List Step →
    ProjectState → List String → WizResult
  | [], s, val, msg, hist, st, cmds => .inPrompt s val msg hist st cmds
  | e :: rest, s, val, msg, hist, st, cmds =>
      match e with
      | .changeValue t =>
          runWizard shouldResume rest s t (validateNameIsUnique t) hist st cmds
      | .accept =>
          match validateNameIsUnique val with
          | some _ => runWizard shouldResume rest s val msg hist st cmds
          | none =>
              match applyStep s val st with
              | (st2, newCmds, next) =>
                  match next with
                  | some s2 =>
                      runWizard shouldResume rest s2 (stepPrefill s2 st2) none
                        (s2 :: hist) st2 (cmds ++ newCmds)
                  | none => .completed st2 (cmds ++ newCmds)
      | .backButton =>
          match hist with
          | _ :: prev :: hist2 =>
              runWizard shouldResume rest prev (stepPrefill prev st) none
                (prev :: hist2) st cmds
          | _ => runWizard shouldResume rest s val msg hist st cmds
      | .hide =>
          match shouldResume with
          | none => .hung st cmds
          | some false => .completed st cmds
          | some true =>
              runWizard shouldResume rest s (stepPrefill s st) none hist st cmds

/-- How a TS template literal renders a possibly-`undefined` field of
the `state as ProjectState` cast (line 25): missing fields become the
string `"undefined"`. -/
def renderOpt : Option String → String
  | some s => s
  | none => "undefined"

/-- The commands `Connect` sends after `collectProjectInputs` resolves
(lines 99-101), appended to those already sent during the wizard:
remove the clone directory, clone the script repository, and invoke the
script with the configured SSH directory and the collected fields, in
the source's argument order dir/name/key_name/username/ip. -/
def connectFinish (ssh_dir : String) (st : ProjectState)
    (cmds : List String) : List String :=
  cmds ++
    ["rm -f -r gcp-vscode-ssh/",
     "git clone https://github.com/andrewdircks/gcp-vscode-ssh.git",
     "bash gcp-vscode-ssh/script.sh " ++ ssh_dir ++ " " ++
       renderOpt st.name ++ " " ++ renderOpt st.key_name ++ " " ++
       renderOpt st.username ++ " " ++ renderOpt st.ip]

/-- The whole of `Connect` (lines 13-102) on a UI-event script:
run the wizard from `projectName` on the empty state; whenever
`MultiStepInput.run`'s promise resolves — it does so on success and on
cancel alike — proceed to send the final commands built from whatever
state was collected. `ssh_dir` is the rendered value of the
`'SSH Key Directory'` configuration read at line 96. -/
def connectRun (shouldResume : Option Bool) (ssh_dir : String)
    (events : List UIEvent) : WizResult :=
  match runWizard shouldResume events .projectName
      (stepPrefill .projectName initialState) none [.projectName]
      initialState [] with
  | .completed st cmds => .completed st (connectFinish ssh_dir st cmds)
  | r => r

/-- No field of the state holds the sentinel value that the validator
rejects. -/
def noSentinel (st : ProjectState) : Prop :=
  st.name ≠ some "vscode" ∧ st.username ≠ some "vscode" ∧
    st.ip ≠ some "vscode" ∧ st.key_name ≠ some "vscode"

instance (st : ProjectState) : Decidable (noSentinel st) := by
  unfold noSentinel
  infer_instance

/-- The state a wizard run has reached, whatever its outcome. -/
def WizResult.state : WizResult → ProjectState
  | .completed st _ => st
  | .inPrompt _ _ _ _ st _ => st
  | .hung st _ => st

/-! ## The per-keystroke validation race (`onDidChangeValue`, lines 255-262) -/

/-- State of the input box's overlapping validations. Promises returned
by `validate` are numbered by creation order; `validating` holds the id
of the promise the handler last stored in the shared `validating`
variable (initialised with `validate('')` at line 236, id `0`), `texts`
the text each validation was started on, `message` the displayed
`input.validationMessage`, and `writer` the id of the validation that
last wrote it. -/
structure ValState where
  nextId : Nat
  validating : Nat
  texts : List String
  message : Option String
  writer : Option Nat
deriving DecidableEq, Repr

/-- The state just after the box is created: only the initial
`validate('')` (line 236) is in flight. -/
def valInit : ValState := ⟨1, 0, [""], none, none⟩

/-- Events of the validation race: `start t` is a keystroke's handler
running synchronously up to its `await` (lines 256-257: a fresh
`validate(text)` promise is created and stored in `validating`);
`finish i` is promise `i` settling and its handler resuming (lines
258-261: the result is written to `input.validationMessage` only if the
promise is still the one stored in `validating`). -/
inductive ValEvent where
  | start (t : String)
  | finish (i : Nat)
deriving DecidableEq, Repr

/-- One event of the validation race. -/
def valStep (st : ValState) : ValEvent → ValState
  | .start t =>
      { st with nextId := st.nextId + 1, validating := st.nextId,
                texts := st.texts ++ [t] }
  | .finish i =>
      if st.validating = i then
        { st with message := validateNameIsUnique (st.texts.getD i ""),
                  writer := some i }
      else st

/-- A whole trace of the validation race, from box creation. -/
def valRun (tr : List ValEvent) : ValState :=
  tr.foldl valStep valInit

/-- Every session id created so far is either already disposed or is the
one live session in `current`. -/
def liveOk (cur : Option Nat) (fresh : Nat) (disp : List Nat) : Prop :=
  ∀ i, i < fresh → i ∈ disp ∨ cur = some i

/-! ## Helper lemmas about the driver loop -/

/-- The invocation log only ever grows: whatever the driver does, the
log accumulated so far stays a prefix of the final log. -/
theorem stepThrough_invoked_accum {S E : Type} :
    ∀ (script : List (StepOutcome S E)) (step : Option S) (hist : List S)
      (cur : Option Nat) (fresh : Nat) (disp : List Nat)
      (inv : List (S × Nat)),
      ∃ tl, (stepThrough script step hist cur fresh disp inv).invoked = inv ++ tl
  | _, none, _, _, _, _, inv => ⟨[], by simp [stepThrough]⟩
  | [], some s, hist, _, _, _, inv =>
      ⟨[(s, hist.length + 1)], by simp [stepThrough]⟩
  | o :: rest, some s, hist, cur, fresh, disp, inv => by
      cases o with
      | ret next =>
          obtain ⟨tl, h⟩ := stepThrough_invoked_accum rest next (s :: hist)
            (some fresh) (fresh + 1) (disp ++ cur.toList)
            (inv ++ [(s, hist.length + 1)])
          exact ⟨(s, hist.length + 1) :: tl, by simp [stepThrough, h]⟩
      | raise t =>
          cases t with
          | flow a =>
              cases a with
              | back =>
                  obtain ⟨tl, h⟩ := stepThrough_invoked_accum rest hist.head?
                    hist.tail (some fresh) (fresh + 1) (disp ++ cur.toList)
                    (inv ++ [(s, hist.length + 1)])
                  exact ⟨(s, hist.length + 1) :: tl, by simp [stepThrough, h]⟩
              | cancel =>
                  exact ⟨[(s, hist.length + 1)], by simp [stepThrough]⟩
              | resume =>
                  obtain ⟨tl, h⟩ := stepThrough_invoked_accum rest (some s) hist
                    (some fresh) (fresh + 1) (disp ++ cur.toList)
                    (inv ++ [(s, hist.length + 1)])
                  exact ⟨(s, hist.length + 1) :: tl, by simp [stepThrough, h]⟩
          | other e => exact ⟨[(s, hist.length + 1)], by simp [stepThrough]⟩

/-- When the current step is live and the script is not exhausted, the
step is invoked: the log records it, at the depth the history reaches
after its push. -/
theorem stepThrough_cons_invoked {S E : Type}
    (o : StepOutcome S E) (rest : List (StepOutcome S E)) (s : S)
    (hist : List S) (cur : Option Nat) (fresh : Nat) (disp : List Nat)
    (inv : List (S × Nat)) :
    ∃ tl, (stepThrough (o :: rest) (some s) hist cur fresh disp inv).invoked =
      inv ++ (s, hist.length + 1) :: tl := by
  cases o with
  | ret next =>
      obtain ⟨tl, h⟩ := stepThrough_invoked_accum rest next (s :: hist)
        (some fresh) (fresh + 1) (disp ++ cur.toList)
        (inv ++ [(s, hist.length + 1)])
      exact ⟨tl, by simp [stepThrough, h]⟩
  | raise t =>
      cases t with
      | flow a =>
          cases a with
          | back =>
              obtain ⟨tl, h⟩ := stepThrough_invoked_accum rest hist.head?
                hist.tail (some fresh) (fresh + 1) (disp ++ cur.toList)
                (inv ++ [(s, hist.length + 1)])
              exact ⟨tl, by simp [stepThrough, h]⟩
          | cancel =>
              exact ⟨[], by simp [stepThrough]⟩
          | resume =>
              obtain ⟨tl, h⟩ := stepThrough_invoked_accum rest (some s) hist
                (some fresh) (fresh + 1) (disp ++ cur.toList)
                (inv ++ [(s, hist.length + 1)])
              exact ⟨tl, by simp [stepThrough, h]⟩
      | other e => exact ⟨[], by simp [stepThrough]⟩

/-- The catch of lines 160-171 swallows all three flow signals: no run
of the driver ever ends with a flow signal as its uncaught rejection. -/
theorem stepThrough_no_flow_escape {S E : Type} :
    ∀ (script : List (StepOutcome S E)) (step : Option S) (hist : List S)
      (cur : Option Nat) (fresh : Nat) (disp : List Nat)
      (inv : List (S × Nat)),
      flowEscaped (stepThrough script step hist cur fresh disp inv) = false
  | _, none, _, _, _, _, _ => by simp [stepThrough, flowEscaped]
  | [], some _, _, _, _, _, _ => by simp [stepThrough, flowEscaped]
  | o :: rest, some s, hist, cur, fresh, disp, inv => by
      cases o with
      | ret next =>
          simpa [stepThrough] using stepThrough_no_flow_escape rest next
            (s :: hist) (some fresh) (fresh + 1) (disp ++ cur.toList)
            (inv ++ [(s, hist.length + 1)])
      | raise t =>
          cases t with
          | flow a =>
              cases a with
              | back =>
                  simpa [stepThrough] using stepThrough_no_flow_escape rest
                    hist.head? hist.tail (some fresh) (fresh + 1)
                    (disp ++ cur.toList) (inv ++ [(s, hist.length + 1)])
              | cancel =>
                  simpa [stepThrough] using stepThrough_no_flow_escape rest
                    none (s :: hist) (some fresh) (fresh + 1)
                    (disp ++ cur.toList) (inv ++ [(s, hist.length + 1)])
              | resume =>
                  simpa [stepThrough] using stepThrough_no_flow_escape rest
                    (some s) hist (some fresh) (fresh + 1)
                    (disp ++ cur.toList) (inv ++ [(s, hist.length + 1)])
          | other e => simp [stepThrough, flowEscaped]

/-- When no session was ever created, `liveOk` holds trivially. -/
theorem liveOk_init : liveOk none 0 [] := by
  intro i hi
  omega

/-- Replacing the live session (disposing the old one, creating a fresh
one) preserves `liveOk`. -/
theorem liveOk_replace (cur : Option Nat) (fresh : Nat) (disp : List Nat)
    (h : liveOk cur fresh disp) :
    liveOk (some fresh) (fresh + 1) (disp ++ cur.toList) := by
  intro i hi
  rcases Nat.lt_succ_iff_lt_or_eq.mp hi with hlt | heq
  · rcases h i hlt with hd | hc
    · exact Or.inl (List.mem_append_left _ hd)
    · exact Or.inl (List.mem_append_right _ (by simp [hc]))
  · exact Or.inr (by simp [heq])

/-- When the loop exits normally (the `completed` outcome, covering both
success and cancel), the final dispose of lines 173-175 runs: `current`
is cleared and every session ever created has been disposed. -/
theorem stepThrough_completed_disposes {S E : Type} :
    ∀ (script : List (StepOutcome S E)) (step : Option S) (hist : List S)
      (cur : Option Nat) (fresh : Nat) (disp : List Nat)
      (inv : List (S × Nat)),
      liveOk cur fresh disp →
      (stepThrough script step hist cur fresh disp inv).outcome = .completed →
      (stepThrough script step hist cur fresh disp inv).current = none ∧
        ∀ i, i < (stepThrough script step hist cur fresh disp inv).fresh →
          i ∈ (stepThrough script step hist cur fresh disp inv).disposed
  | script, none, hist, cur, fresh, disp, inv => by
      intro hlive _
      refine ⟨by simp [stepThrough], ?_⟩
      intro i hi
      simp only [stepThrough] at hi ⊢
      rcases hlive i hi with hd | hc
      · exact List.mem_append_left _ hd
      · exact List.mem_append_right _ (by simp [hc])
  | [], some s, hist, cur, fresh, disp, inv => by
      intro _ hout
      simp [stepThrough] at hout
  | o :: rest, some s, hist, cur, fresh, disp, inv => by
      intro hlive hout
      cases o with
      | ret next =>
          simp only [stepThrough] at hout ⊢
          exact stepThrough_completed_disposes rest next (s :: hist)
            (some fresh) (fresh + 1) (disp ++ cur.toList)
            (inv ++ [(s, hist.length + 1)])
            (liveOk_replace cur fresh disp hlive) hout
      | raise t =>
          cases t with
          | flow a =>
              cases a with
              | back =>
                  simp only [stepThrough] at hout ⊢
                  exact stepThrough_completed_disposes rest hist.head?
                    hist.tail (some fresh) (fresh + 1) (disp ++ cur.toList)
                    (inv ++ [(s, hist.length + 1)])
                    (liveOk_replace cur fresh disp hlive) hout
              | cancel =>
                  refine ⟨by simp [stepThrough], ?_⟩
                  intro i hi
                  simp only [stepThrough] at hi ⊢
                  rcases liveOk_replace cur fresh disp hlive i hi with hd | hc
                  · exact List.mem_append_left _ hd
                  · have hfi : fresh = i := by injection hc
                    exact List.mem_append_right _ (by simp [hfi])
              | resume =>
                  simp only [stepThrough] at hout ⊢
                  exact stepThrough_completed_disposes rest (some s) hist
                    (some fresh) (fresh + 1) (disp ++ cur.toList)
                    (inv ++ [(s, hist.length + 1)])
                    (liveOk_replace cur fresh disp hlive) hout
          | other e => simp [stepThrough] at hout

/-! ## Helper lemmas about the concrete wizard -/

/-- A value the validator passes is not the sentinel. -/
theorem validate_none_ne_sentinel {v : String}
    (h : validateNameIsUnique v = none) : v ≠ "vscode" := by
  intro hv
  simp [validateNameIsUnique, hv] at h

/-- A resolving step writes only its accepted value into the state, so
a sentinel-free state stays sentinel-free when the accepted value is
not the sentinel. -/
theorem noSentinel_applyStep (s : Step) (v : String) (st : ProjectState)
    (h : noSentinel st) (hv : v ≠ "vscode") :
    noSentinel (applyStep s v st).1 := by
  obtain ⟨h1, h2, h3, h4⟩ := h
  have hv2 : (some v : Option String) ≠ some "vscode" := by simpa using hv
  cases s
  · exact ⟨hv2, h2, h3, h4⟩
  · exact ⟨h1, hv2, h3, h4⟩
  · exact ⟨h1, h2, hv2, h4⟩
  · exact ⟨h1, h2, h3, hv2⟩

/-- Only values the validator passes ever reach the state: whatever the
user does, a run started from a sentinel-free state ends (or pauses, or
hangs) in a sentinel-free state. In particular no step ever advances on
the sentinel value. -/
theorem runWizard_no_sentinel (sr : Option Bool) :
    ∀ (events : List UIEvent) (s : Step) (val : String)
      (msg : Option String) (hist : List Step) (st : ProjectState)
      (cmds : List String), noSentinel st →
      noSentinel (runWizard sr events s val msg hist st cmds).state
  | [], s, val, msg, hist, st, cmds => fun h => by
      simpa [runWizard, WizResult.state] using h
  | .changeValue t :: rest, s, val, msg, hist, st, cmds => fun h => by
      simpa [runWizard] using
        runWizard_no_sentinel sr rest s t (validateNameIsUnique t) hist st cmds h
  | .accept :: rest, s, val, msg, hist, st, cmds => fun h => by
      cases hval : validateNameIsUnique val with
      | some m =>
          simpa [runWizard, hval] using
            runWizard_no_sentinel sr rest s val msg hist st cmds h
      | none =>
          have hv := validate_none_ne_sentinel hval
          have h2 := noSentinel_applyStep s val st h hv
          rcases happ : applyStep s val st with ⟨st2, newCmds, next⟩
          rw [happ] at h2
          cases next with
          | some s2 =>
              simpa [runWizard, hval, happ] using
                runWizard_no_sentinel sr rest s2 (stepPrefill s2 st2) none
                  (s2 :: hist) st2 (cmds ++ newCmds) h2
          | none => simpa [runWizard, hval, happ, WizResult.state] using h2
  | .backButton :: rest, s, val, msg, hist, st, cmds => fun h => by
      match hist with
      | [] =>
          simpa [runWizard] using
            runWizard_no_sentinel sr rest s val msg [] st cmds h
      | [x] =>
          simpa [runWizard] using
            runWizard_no_sentinel sr rest s val msg [x] st cmds h
      | x :: prev :: hist2 =>
          simpa [runWizard] using
            runWizard_no_sentinel sr rest prev (stepPrefill prev st) none
              (prev :: hist2) st cmds h
  | .hide :: rest, s, val, msg, hist, st, cmds => fun h => by
      match sr with
      | none => simpa [runWizard, WizResult.state] using h
      | some false => simpa [runWizard, WizResult.state] using h
      | some true =>
          simpa [runWizard] using
            runWizard_no_sentinel (some true) rest s (stepPrefill s st) none
              hist st cmds h

/-! ## Helper lemmas about the validation race -/

/-- Appending one event to a trace steps the machine once. -/
theorem valRun_append (tr : List ValEvent) (e : ValEvent) :
    valRun (tr ++ [e]) = valStep (valRun tr) e := by
  simp [valRun, List.foldl_append]

/-- `validating` always holds the id of the most recently created
validation promise, the one numbered `nextId - 1`. -/
theorem valRun_validating_latest (tr : List ValEvent) :
    (valRun tr).validating + 1 = (valRun tr).nextId := by
  suffices h : ∀ (l : List ValEvent) (st : ValState),
      st.validating + 1 = st.nextId →
      (l.foldl valStep st).validating + 1 = (l.foldl valStep st).nextId by
    exact h tr valInit rfl
  intro l
  induction l with
  | nil => intro st h; simpa using h
  | cons e rest ih =>
      intro st h
      cases e with
      | start t => exact ih _ (by simp [valStep])
      | finish i =>
          refine ih _ ?_
          by_cases hv : st.validating = i <;> simp [valStep, hv] <;> omega

/-! ## Claim theorems -/

/-- Claim C4: whenever the currently running step raises `Back` and the
history holds at least two steps, the driver drops the just-invoked
step from the history, then drops and re-invokes the previous step
(first conjunct); the history grows by one entry on each forward
advance (second conjunct); and across such a back-navigation the
invocation depth shrinks by a net of one entry — the just-invoked step
ran at depth `h.length + 2` and the re-invoked previous step runs at
depth `h.length + 1` (third conjunct: two pops followed by the re-push
of the re-invoked step). -/
theorem c4_back_pops_twice_reinvokes_previous {S E : Type}
    (rest : List (StepOutcome S E)) (o2 : StepOutcome S E) (s prev : S)
    (h : List S) (cur : Option Nat) (fresh : Nat) (disp : List Nat)
    (inv : List (S × Nat)) :
    (stepThrough (.raise (.flow .back) :: rest) (some s) (prev :: h) cur
        fresh disp inv =
      stepThrough rest (some prev) h (some fresh) (fresh + 1)
        (disp ++ cur.toList) (inv ++ [(s, h.length + 2)])) ∧
    (∀ (next : S) (hist2 : List S),
      stepThrough (.ret (some next) :: rest) (some s) hist2 cur fresh disp
          inv =
        stepThrough rest (some next) (s :: hist2) (some fresh) (fresh + 1)
          (disp ++ cur.toList) (inv ++ [(s, hist2.length + 1)])) ∧
    (∃ tl, (stepThrough (.raise (.flow .back) :: o2 :: rest) (some s)
        (prev :: h) cur fresh disp []).invoked =
      (s, h.length + 2) :: (prev, h.length + 1) :: tl) := by
  refine ⟨by simp [stepThrough, Nat.add_assoc], fun next hist2 => by simp [stepThrough], ?_⟩
  have h1 : stepThrough (.raise (.flow .back) :: o2 :: rest) (some s)
      (prev :: h) cur fresh disp ([] : List (S × Nat)) =
      stepThrough (o2 :: rest) (some prev) h (some fresh) (fresh + 1)
        (disp ++ cur.toList) [(s, h.length + 2)] := by
    simp [stepThrough, Nat.add_assoc]
  obtain ⟨tl, h2⟩ := stepThrough_cons_invoked o2 rest prev h (some fresh)
    (fresh + 1) (disp ++ cur.toList) [(s, h.length + 2)]
  exact ⟨tl, by rw [h1, h2]; simp⟩

/-- Witness for claim C4: the back-navigation equation at a concrete
driver configuration — step `2` raising `Back` over the history `[1]`
hands control back to step `1` with the history emptied for its
re-push. -/
theorem c4_back_pops_twice_reinvokes_previous_witness :
    stepThrough (S := Nat) (E := Nat) [.raise (.flow .back)] (some 2) [1]
        none 0 [] [] =
      stepThrough [] (some 1) [] (some 0) 1 [] [(2, 2)] :=
  (c4_back_pops_twice_reinvokes_previous [] (.ret none) 2 1 [] none 0 [] []).1

/-- Claim C9: the three flow-control signals, raised inside a prompt,
are handled entirely inside the driver loop and never escape from
`MultiStepInput.run` (first conjunct, for every script and start step);
every other rejection raised by a step propagates uncaught to the
caller of `run` (second conjunct, from any driver configuration). -/
theorem c9_flow_signals_contained {S E : Type} :
    (∀ (script : List (StepOutcome S E)) (start : S),
      flowEscaped (runDriver script start) = false) ∧
    (∀ (e : E) (rest : List (StepOutcome S E)) (s : S) (hist : List S)
        (cur : Option Nat) (fresh : Nat) (disp : List Nat)
        (inv : List (S × Nat)),
      (stepThrough (.raise (.other e) :: rest) (some s) hist cur fresh disp
          inv).outcome = .uncaught (.other e)) := by
  constructor
  · intro script start
    exact stepThrough_no_flow_escape script (some start) [] none 0 [] []
  · intro e rest s hist cur fresh disp inv
    simp [stepThrough]

/-- Witness for claim C9: at a concrete configuration, a raised
`Cancel` does not escape the driver, while an ordinary error `3` thrown
by step `1` surfaces uncaught. -/
theorem c9_flow_signals_contained_witness :
    flowEscaped (runDriver (S := Nat) (E := Nat)
        [.raise (.flow .cancel)] 0) = false ∧
      (stepThrough (S := Nat) (E := Nat) [.raise (.other 3)] (some 1) []
          none 0 [] []).outcome = .uncaught (.other 3) :=
  ⟨c9_flow_signals_contained.1 [.raise (.flow .cancel)] 0,
    c9_flow_signals_contained.2 3 [] 1 [] none 0 [] []⟩

/-- Claim C10: raising `Back` while the history holds only the one
current step pops the history to empty, obtains no previous step, and
exits the loop exactly as on successful completion: the outcome is
`completed`, no further step is invoked, the current session is
disposed and cleared. -/
theorem c10_back_at_depth_one_completes {S E : Type}
    (rest : List (StepOutcome S E)) (s : S) (cur : Option Nat)
    (fresh : Nat) (disp : List Nat) (inv : List (S × Nat)) :
    stepThrough (.raise (.flow .back) :: rest) (some s) [] cur fresh disp
        inv =
      ⟨.completed, [], inv ++ [(s, 1)], none, fresh + 1,
        disp ++ cur.toList ++ [fresh]⟩ := by
  simp [stepThrough]

/-- Witness for claim C10: step `5` raising `Back` with a singleton
history ends the run as a completion, invoking nothing further and
disposing the one session. -/
theorem c10_back_at_depth_one_completes_witness :
    stepThrough (S := Nat) (E := Nat) [.raise (.flow .back)] (some 5) []
        none 0 [] [] =
      ⟨.completed, [], [(5, 1)], none, 1, [0]⟩ := by
  simpa using c10_back_at_depth_one_completes [] 5 none 0 [] []

/-- Claim C8, counterexample: the claim says the final prompt session is
disposed on every exit path, including an uncaught non-flow error; but
when the single step rejects with such an error, the rethrow at line
169 of addKey.ts exits `stepThrough` before the final dispose of lines
173-175: the run ends with session `0` still live in `current` and
nothing disposed. -/
theorem c8_uncaught_error_skips_dispose_cex :
    (runDriver [StepOutcome.raise (.other 0)] (0 : Nat)).outcome =
        .uncaught (.other (0 : Nat)) ∧
      (runDriver [StepOutcome.raise (.other 0)] (0 : Nat)).current = some 0 ∧
      (runDriver [StepOutcome.raise (.other 0)] (0 : Nat)).disposed = [] := by
  refine ⟨rfl, rfl, rfl⟩

/-- Claim C8, amended: whenever the driver loop ends by exiting its
`while` normally — successful completion or cancellation, the
`completed` outcome — the final prompt session held in `current` is
disposed (and indeed every session ever created has been); on the
uncaught-error exit path the final dispose is skipped. -/
theorem c8_completed_disposes_final_session {S E : Type}
    (script : List (StepOutcome S E)) (start : S)
    (hc : (runDriver script start).outcome = .completed) :
    (runDriver script start).current = none ∧
      ∀ i, i < (runDriver script start).fresh →
        i ∈ (runDriver script start).disposed :=
  stepThrough_completed_disposes script (some start) [] none 0 [] []
    liveOk_init hc

/-- Witness for claim C8's amended theorem: the driver run whose single
step returns nothing completes, and its one session is both cleared
from `current` and disposed. -/
theorem c8_completed_disposes_final_session_witness :
    (runDriver [StepOutcome.ret (S := Nat) (E := Nat) none] 0).current =
        none ∧
      0 ∈ (runDriver [StepOutcome.ret (S := Nat) (E := Nat) none] 0).disposed := by
  have h := c8_completed_disposes_final_session
    [StepOutcome.ret (S := Nat) (E := Nat) none] 0 rfl
  exact ⟨h.1, h.2 0 (by decide)⟩

/-- Claim C1: for every run in which the user types and accepts exactly
four values, none equal to the sentinel `"vscode"`, the wizard
terminates successfully and the resulting state's fields `name`,
`username`, `ip`, `key_name` hold exactly the four accepted values in
entry order (the commands then dispatched carry them likewise). -/
theorem c1_wizard_collects_four_values (v1 v2 v3 v4 dir : String)
    (h1 : v1 ≠ "vscode") (h2 : v2 ≠ "vscode") (h3 : v3 ≠ "vscode")
    (h4 : v4 ≠ "vscode") :
    connectRun none dir
      [.changeValue v1, .accept, .changeValue v2, .accept,
       .changeValue v3, .accept, .changeValue v4, .accept] =
      .completed ⟨some v1, some v2, some v3, some v4⟩
        ["gcloud config set project " ++ v1,
         "rm -f -r gcp-vscode-ssh/",
         "git clone https://github.com/andrewdircks/gcp-vscode-ssh.git",
         "bash gcp-vscode-ssh/script.sh " ++ dir ++ " " ++ v1 ++ " " ++ v4
           ++ " " ++ v2 ++ " " ++ v3] := by
  simp [connectRun, runWizard, validateNameIsUnique, h1, h2, h3, h4,
    applyStep, stepPrefill, initialState, connectFinish, renderOpt]

/-- Witness for claim C1: a concrete run with the four values
`p`, `u`, `i`, `k`. -/
theorem c1_wizard_collects_four_values_witness :
    connectRun none "D"
      [.changeValue "p", .accept, .changeValue "u", .accept,
       .changeValue "i", .accept, .changeValue "k", .accept] =
      .completed ⟨some "p", some "u", some "i", some "k"⟩
        ["gcloud config set project " ++ "p",
         "rm -f -r gcp-vscode-ssh/",
         "git clone https://github.com/andrewdircks/gcp-vscode-ssh.git",
         "bash gcp-vscode-ssh/script.sh " ++ "D" ++ " " ++ "p" ++ " " ++ "k"
           ++ " " ++ "u" ++ " " ++ "i"] :=
  c1_wizard_collects_four_values "p" "u" "i" "k" "D" (by decide) (by decide)
    (by decide) (by decide)

/-- Claim C2, evaluated at the failing input: with a `shouldResume` that
resolves `false`, the user accepts `"proj1"` at step 1 and dismisses the
step-2 prompt, so the running step raises `Cancel`; the loop does end
there, but `run`'s promise resolves exactly as on success, so `Connect`
goes on to dispatch the clean-up, clone and script commands built from
the partially collected state, with the TS rendering `"undefined"` for
the three never-collected fields. -/
theorem c2_cancel_dispatches_partial_state :
    connectRun (some false) "DIR" [.changeValue "proj1", .accept, .hide] =
      .completed ⟨some "proj1", none, none, none⟩
        ["gcloud config set project proj1",
         "rm -f -r gcp-vscode-ssh/",
         "git clone https://github.com/andrewdircks/gcp-vscode-ssh.git",
         "bash gcp-vscode-ssh/script.sh DIR proj1 undefined undefined undefined"] :=
  rfl

/-- Claim C5, counterexample: after accepting `"proj1"` at step 1 and
pressing Back at step 2, the redisplayed step-1 box holds the hardcoded
`value: ''` of addKey.ts line 35 — the empty string, not the previously
entered `"proj1"`. -/
theorem c5_back_prefill_cex :
    connectRun none "DIR" [.changeValue "proj1", .accept, .backButton] =
        .inPrompt .projectName "" none [.projectName]
          ⟨some "proj1", none, none, none⟩
          ["gcloud config set project proj1"] ∧
      "" ≠ "proj1" :=
  ⟨rfl, by decide⟩

/-- Claim C5, amended, covering every back-capable step of the
four-step chain, `k = 2, 3, 4`: raising `Back` from step `k`
returns control to step `k-1`, but the redisplayed input box is empty —
steps 1-3 hardcode `value: ''`, so the previously entered value is not
pre-filled; after re-entering a value and advancing, the chain proceeds
forward from step `k` again using the new value. In entry order the
conjuncts show: back from step 2 redisplays step 1 empty (not `v1`) and
re-accepting `w1` overwrites `name` and re-sends the `gcloud` command;
back from step 3 redisplays step 2 empty (not `v2`) and re-accepting
`w2` overwrites `username` and advances to step 3; back from step 4
redisplays step 3 empty (not `v3`) and re-accepting `w3` overwrites
`ip` and advances to step 4 — whose box alone is pre-filled, with
`state.name`. -/
theorem c5_back_empty_prefill_then_forward (v1 v2 v3 w1 w2 w3 dir : String)
    (h1 : v1 ≠ "vscode") (h2 : v2 ≠ "vscode") (h3 : v3 ≠ "vscode")
    (g1 : w1 ≠ "vscode") (g2 : w2 ≠ "vscode") (g3 : w3 ≠ "vscode") :
    (connectRun none dir [.changeValue v1, .accept, .backButton] =
      .inPrompt .projectName "" none [.projectName]
        ⟨some v1, none, none, none⟩
        ["gcloud config set project " ++ v1]) ∧
    (connectRun none dir
        [.changeValue v1, .accept, .backButton, .changeValue w1, .accept] =
      .inPrompt .projectUsername "" none [.projectUsername, .projectName]
        ⟨some w1, none, none, none⟩
        ["gcloud config set project " ++ v1,
         "gcloud config set project " ++ w1]) ∧
    (connectRun none dir
        [.changeValue v1, .accept, .changeValue v2, .accept, .backButton] =
      .inPrompt .projectUsername "" none [.projectUsername, .projectName]
        ⟨some v1, some v2, none, none⟩
        ["gcloud config set project " ++ v1]) ∧
    (connectRun none dir
        [.changeValue v1, .accept, .changeValue v2, .accept, .backButton,
         .changeValue w2, .accept] =
      .inPrompt .projectIp "" none
        [.projectIp, .projectUsername, .projectName]
        ⟨some v1, some w2, none, none⟩
        ["gcloud config set project " ++ v1]) ∧
    (connectRun none dir
        [.changeValue v1, .accept, .changeValue v2, .accept,
         .changeValue v3, .accept, .backButton] =
      .inPrompt .projectIp "" none
        [.projectIp, .projectUsername, .projectName]
        ⟨some v1, some v2, some v3, none⟩
        ["gcloud config set project " ++ v1]) ∧
    (connectRun none dir
        [.changeValue v1, .accept, .changeValue v2, .accept,
         .changeValue v3, .accept, .backButton, .changeValue w3, .accept] =
      .inPrompt .projectKeyname v1 none
        [.projectKeyname, .projectIp, .projectUsername, .projectName]
        ⟨some v1, some v2, some w3, none⟩
        ["gcloud config set project " ++ v1]) := by
  refine ⟨?_, ?_, ?_, ?_, ?_, ?_⟩
  · simp [connectRun, runWizard, validateNameIsUnique, h1, applyStep,
      stepPrefill, initialState]
  · simp [connectRun, runWizard, validateNameIsUnique, h1, g1, applyStep,
      stepPrefill, initialState]
  · simp [connectRun, runWizard, validateNameIsUnique, h1, h2, applyStep,
      stepPrefill, initialState]
  · simp [connectRun, runWizard, validateNameIsUnique, h1, h2, g2,
      applyStep, stepPrefill, initialState]
  · simp [connectRun, runWizard, validateNameIsUnique, h1, h2, h3,
      applyStep, stepPrefill, initialState]
  · simp [connectRun, runWizard, validateNameIsUnique, h1, h2, h3, g3,
      applyStep, stepPrefill, initialState]

/-- Witness for claim C5's amended theorem, at concrete values: the
`k = 2` conjunct (step 1 redisplayed empty after Back, not holding the
accepted `proj1`) and the `k = 4` forward conjunct (step 3 re-accepted
with `9.9.9.9`, step 4 redisplayed pre-filled with the collected
name). -/
theorem c5_back_empty_prefill_then_forward_witness :
    (connectRun none "D" [.changeValue "proj1", .accept, .backButton] =
      .inPrompt .projectName "" none [.projectName]
        ⟨some "proj1", none, none, none⟩
        ["gcloud config set project " ++ "proj1"]) ∧
    (connectRun none "D"
        [.changeValue "proj1", .accept, .changeValue "dev", .accept,
         .changeValue "1.2.3.4", .accept, .backButton,
         .changeValue "9.9.9.9", .accept] =
      .inPrompt .projectKeyname "proj1" none
        [.projectKeyname, .projectIp, .projectUsername, .projectName]
        ⟨some "proj1", some "dev", some "9.9.9.9", none⟩
        ["gcloud config set project " ++ "proj1"]) := by
  have h := c5_back_empty_prefill_then_forward "proj1" "dev" "1.2.3.4"
    "proj2" "ops" "9.9.9.9" "D" (by decide) (by decide) (by decide)
    (by decide) (by decide) (by decide)
  exact ⟨h.1, h.2.2.2.2.2⟩

/-- Claim C6, counterexample: a terminal command is dispatched before
the wizard completes: as soon as step 1's prompt resolves with
`"proj1"`, `projectName` sends the project-set command (addKey.ts line
40) while the wizard is still showing step 2. -/
theorem c6_dispatch_before_completion_cex :
    connectRun none "DIR" [.changeValue "proj1", .accept] =
      .inPrompt .projectUsername "" none [.projectUsername, .projectName]
        ⟨some "proj1", none, none, none⟩
        ["gcloud config set project proj1"] :=
  rfl

/-- Claim C6, amended: the project-set command is dispatched as soon as
the name step resolves, during the wizard; the remaining commands are
dispatched once the wizard completes. For the end-to-end scenario with
`name="proj1"`, `username="dev"`, `ip="1.2.3.4"` and the key-name
default accepted, the dispatched sequence includes, in order, the
project-set command, the clone command, and one script invocation
carrying all four collected values plus the configured SSH
directory. -/
theorem c6_scenario_command_sequence (dir : String) :
    connectRun none dir
      [.changeValue "proj1", .accept, .changeValue "dev", .accept,
       .changeValue "1.2.3.4", .accept, .accept] =
      .completed ⟨some "proj1", some "dev", some "1.2.3.4", some "proj1"⟩
        ["gcloud config set project proj1",
         "rm -f -r gcp-vscode-ssh/",
         "git clone https://github.com/andrewdircks/gcp-vscode-ssh.git",
         "bash gcp-vscode-ssh/script.sh " ++ dir ++
           " proj1 proj1 dev 1.2.3.4"] := by
  simp [connectRun, runWizard, validateNameIsUnique, applyStep,
    stepPrefill, initialState, connectFinish, renderOpt]
  simp only [String.append_assoc]
  rfl

/-- Witness for claim C6's amended theorem: the scenario with the SSH
directory configured as `DIR`. -/
theorem c6_scenario_command_sequence_witness :
    connectRun none "DIR"
      [.changeValue "proj1", .accept, .changeValue "dev", .accept,
       .changeValue "1.2.3.4", .accept, .accept] =
      .completed ⟨some "proj1", some "dev", some "1.2.3.4", some "proj1"⟩
        ["gcloud config set project proj1",
         "rm -f -r gcp-vscode-ssh/",
         "git clone https://github.com/andrewdircks/gcp-vscode-ssh.git",
         "bash gcp-vscode-ssh/script.sh " ++ "DIR" ++
           " proj1 proj1 dev 1.2.3.4"] :=
  c6_scenario_command_sequence "DIR"

/-- Claim C7: while the entered value equals the sentinel `"vscode"`,
the validator returns the fixed message `Name not unique` (first
conjunct, the message recorded by the change handler); an accept never
resolves the prompt — it leaves step, value, state and history exactly
as they were (second conjunct); and the wizard never advances past a
step on the sentinel: every field a run ever records is non-sentinel
(third conjunct). -/
theorem c7_sentinel_never_accepts :
    validateNameIsUnique "vscode" = some "Name not unique" ∧
      (∀ (sr : Option Bool) (rest : List UIEvent) (s : Step)
          (msg : Option String) (hist : List Step) (st : ProjectState)
          (cmds : List String),
        runWizard sr (.accept :: rest) s "vscode" msg hist st cmds =
          runWizard sr rest s "vscode" msg hist st cmds) ∧
      (∀ (sr : Option Bool) (events : List UIEvent) (s : Step)
          (val : String) (msg : Option String) (hist : List Step)
          (st : ProjectState) (cmds : List String), noSentinel st →
        noSentinel (runWizard sr events s val msg hist st cmds).state) := by
  refine ⟨rfl, ?_, runWizard_no_sentinel⟩
  intro sr rest s msg hist st cmds
  simp [runWizard, validateNameIsUnique]

/-- Witness for claim C7: accepting while the box holds `"vscode"` at
step 1 leaves the prompt unresolved, and the run that typed the
sentinel records no sentinel field. -/
theorem c7_sentinel_never_accepts_witness :
    runWizard none [UIEvent.accept] .projectName "vscode" none
        [.projectName] initialState [] =
      .inPrompt .projectName "vscode" none [.projectName] initialState [] ∧
    noSentinel (runWizard none [UIEvent.changeValue "vscode", UIEvent.accept]
        .projectName "" none [.projectName] initialState []).state := by
  constructor
  · have h := c7_sentinel_never_accepts.2.1 none [] .projectName none
      [.projectName] initialState []
    simpa [runWizard] using h
  · exact c7_sentinel_never_accepts.2.2 none _ _ _ _ _ _ _ (by decide)

/-- Claim C3: validation ids are issued in increasing order, and
`validating` always holds the newest id (third conjunct), so a stale
validation — one some newer validation has started after — is exactly
one with `i < validating`, and stays so forever since `validating`
never decreases (second conjunct). Such a stale validation, completing
at any later point, never writes the displayed validation message
(first conjunct), while the most recently started one does write its
result when it completes (fourth conjunct). -/
theorem c3_stale_validation_never_overwrites :
    (∀ (pre : List ValEvent) (i : Nat), i < (valRun pre).validating →
      (valRun (pre ++ [.finish i])).message = (valRun pre).message ∧
        (valRun (pre ++ [.finish i])).writer = (valRun pre).writer) ∧
      (∀ (pre : List ValEvent) (e : ValEvent),
        (valRun pre).validating ≤ (valRun (pre ++ [e])).validating) ∧
      (∀ (pre : List ValEvent),
        (valRun pre).validating + 1 = (valRun pre).nextId) ∧
      (∀ (pre : List ValEvent),
        (valRun (pre ++ [.finish (valRun pre).validating])).message =
          validateNameIsUnique
            ((valRun pre).texts.getD (valRun pre).validating "")) := by
  refine ⟨?_, ?_, valRun_validating_latest, ?_⟩
  · intro pre i hi
    rw [valRun_append]
    have hne : (valRun pre).validating ≠ i := by omega
    simp [valStep, hne]
  · intro pre e
    rw [valRun_append]
    cases e with
    | start t =>
        have h := valRun_validating_latest pre
        simp [valStep]
        omega
    | finish i =>
        by_cases hv : (valRun pre).validating = i <;> simp [valStep, hv]
  · intro pre
    rw [valRun_append]
    simp [valStep]

/-- Witness for claim C3: the user types `"ab"` (validation 1), then
`"vscode"` (validation 2); validation 2 finishes first and writes the
uniqueness failure; validation 1, now stale, finishes late and does not
overwrite it. -/
theorem c3_stale_validation_never_overwrites_witness :
    1 < (valRun [.start "ab", .start "vscode", .finish 2]).validating ∧
      (valRun ([.start "ab", .start "vscode", .finish 2] ++
          [.finish 1])).message = some "Name not unique" := by
  refine ⟨by decide, ?_⟩
  have h := (c3_stale_validation_never_overwrites.1
    [.start "ab", .start "vscode", .finish 2] 1 (by decide)).1
  rw [h]
  decide

end GcpSsh
